import Mathlib

/-!
# Momento topic transport (pkg/transport/momento_transport.go)

A shallow embedding of `MomentoServerTransport`: its lifecycle operations
(`Start`, `Close`), the publisher (`Send`), the topic resolver, the message
decoder (`deserializeMessage`) and the subscription loop (`readLoop`,
`processReadBuffer`).

What lies outside the repository is taken as a parameter:
* the pub/sub client (`momento.TopicClient`) is a record of its calls over an
  abstract handle state `C`;
* the JSON codec (`encoding/json` applied to the message types of the RPC
  library) is a record with one encoder and the four typed decoders;
* the registered callbacks are named by a `Handler` and their effect on the
  transport is given by a `Callbacks` record;
* a subscription is the sequence of results its successive `Item` calls give.
-/

namespace MomentoTransport

/-! ## Data model -/

/-- Go `error` values: a fixed text (`errors.New`, `fmt.Errorf` without verb)
or a context wrapped around an inner error (`fmt.Errorf("ctx: %w", err)`). -/
inductive GoError where
  | text (msg : String)
  | wrap (context : String) (inner : GoError)
  deriving DecidableEq, Repr

instance instDecidableEqExcept {ε α : Type} [DecidableEq ε] [DecidableEq α] :
    DecidableEq (Except ε α)
  | .ok a, .ok b => if h : a = b then isTrue (by rw [h]) else isFalse (by intro e; cases e; exact h rfl)
  | .error a, .error b =>
    if h : a = b then isTrue (by rw [h]) else isFalse (by intro e; cases e; exact h rfl)
  | .ok _, .error _ => isFalse (by intro e; cases e)
  | .error _, .ok _ => isFalse (by intro e; cases e)

/-- Go type `RunMode` (`type RunMode string`). -/
abbrev RunMode := String

/-- Run mode `Server RunMode = "server"`. -/
def Server : RunMode := "server"

/-- Run mode `Client RunMode = "client"`. -/
def Client : RunMode := "client"

/-- Name of a registered callback (a Go func value). -/
abbrev Handler := String

/-- Modelled from the spec: the Request variant {id, method, params} of the RPC
library message type (the type declaration is not part of the repository). -/
structure BaseJSONRPCRequest where
  Id : Int
  Method : String
  Params : String
  deriving DecidableEq, Repr

/-- Modelled from the spec: the Notification variant {method, params}. -/
structure BaseJSONRPCNotification where
  Method : String
  Params : String
  deriving DecidableEq, Repr

/-- Modelled from the spec: the Response variant {id, result}. -/
structure BaseJSONRPCResponse where
  Id : Int
  Result : String
  deriving DecidableEq, Repr

/-- Modelled from the spec: the Error variant {id, code, message}. -/
structure BaseJSONRPCError where
  Id : Int
  Code : Int
  Message : String
  deriving DecidableEq, Repr

/-- Modelled from the spec: the RPC message, a tagged union with exactly one
active variant. The constructors stand for `NewBaseMessageRequest`,
`NewBaseMessageNotification`, `NewBaseMessageResponse`, `NewBaseMessageError`. -/
inductive BaseJsonRpcMessage where
  | Request (req : BaseJSONRPCRequest)
  | Notification (notif : BaseJSONRPCNotification)
  | Response (resp : BaseJSONRPCResponse)
  | Error (errResp : BaseJSONRPCError)
  deriving DecidableEq, Repr

/-- The JSON codec the transport calls: `json.Marshal(message)` and
`json.Unmarshal(item, &x)` for `x` of each of the four variant types.
A Go `[]byte` and the `momento.String` made from it carry the same bytes; both
are a `String` here. -/
structure JsonCodec where
  Marshal : BaseJsonRpcMessage → Except GoError String
  UnmarshalRequest : String → Except GoError BaseJSONRPCRequest
  UnmarshalNotification : String → Except GoError BaseJSONRPCNotification
  UnmarshalResponse : String → Except GoError BaseJSONRPCResponse
  UnmarshalError : String → Except GoError BaseJSONRPCError

/-- Type `momento.TopicValue`: what a subscription item carries. -/
inductive TopicValue where
  | String (v : String)
  | Bytes (v : List Nat)
  deriving DecidableEq, Repr

/-- Type `momento.TopicPublishRequest`. -/
structure TopicPublishRequest where
  CacheName : String
  TopicName : String
  Value : TopicValue
  deriving DecidableEq, Repr

/-- Type `momento.TopicSubscribeRequest`. -/
structure TopicSubscribeRequest where
  CacheName : String
  TopicName : String
  deriving DecidableEq, Repr

/-- Type `momento.TopicSubscription`, as the results of its successive `Item`
calls. After the last listed result `Item` does not return. -/
abbrev TopicSubscription := List (Except GoError TopicValue)

/-- Interface `momento.TopicClient` over a handle state `C`: `Close` releases the handle,
`Publish` and `Subscribe` answer depending on the handle state. -/
structure TopicClient (C : Type) where
  Close : C → C
  Publish : C → TopicPublishRequest → Option GoError
  Subscribe : C → TopicSubscribeRequest → Except GoError TopicSubscription

/-- Struct `MomentoServerTransport`. A nil callback is `none`. -/
structure MomentoServerTransport (C : Type) where
  started : Bool
  momentoTopicClient : C
  cacheName : String
  runMode : RunMode
  onClose : Option Handler
  onError : Option Handler
  onMessage : Option Handler
  deriving DecidableEq, Repr

/-- What running a registered callback does to the transport it is registered
on (a callback may call `Close` or a setter). -/
structure Callbacks (C : Type) where
  runError : Handler → GoError → MomentoServerTransport C → MomentoServerTransport C
  runMessage : Handler → BaseJsonRpcMessage → MomentoServerTransport C →
    MomentoServerTransport C

/-- Type `context.Context` as the read loop sees it: `Done k` tells whether the
`k`-th poll of `ctx.Done()` (counted from 0) finds the context cancelled. -/
structure Context where
  Done : Nat → Bool

/-- Calls that leave the transport, in program order. -/
inductive Effect where
  | goReadLoop
  | publish (req : TopicPublishRequest)
  | subscribe (req : TopicSubscribeRequest)
  | item
  | onError (handler : Handler) (err : GoError)
  | onMessage (handler : Handler) (message : BaseJsonRpcMessage)
  deriving DecidableEq, Repr

/-- Result of a method call: the transport afterwards, the returned value and
the calls made. -/
structure Outcome (C : Type) (R : Type) where
  t : MomentoServerTransport C
  ret : R
  effects : List Effect
  deriving DecidableEq, Repr

/-! ## Construction and lifecycle -/

/-- Constructor `NewMomentoServerTransport`. -/
def NewMomentoServerTransport {C : Type} (client : C) (cacheName : String) :
    MomentoServerTransport C :=
  { started := false
    momentoTopicClient := client
    cacheName := cacheName
    runMode := Server
    onClose := none
    onError := none
    onMessage := none }

/-- Constructor `NewMomentoClientTransport`. -/
def NewMomentoClientTransport {C : Type} (client : C) (cacheName : String) :
    MomentoServerTransport C :=
  { started := false
    momentoTopicClient := client
    cacheName := cacheName
    runMode := Client
    onClose := none
    onError := none
    onMessage := none }

/-- Method `Start`: the context is only handed on to the spawned `readLoop`. -/
def Start {C : Type} (t : MomentoServerTransport C) :
    Outcome C (Option GoError) :=
  if t.started then
    ⟨t, some (.text "MomentoServerTransport already started"), []⟩
  else
    ⟨{ t with started := true }, none, [.goReadLoop]⟩

/-- Method `Close`: the call of `Close` on the client is recorded in the
handle state. -/
def Close {C : Type} (cl : TopicClient C) (t : MomentoServerTransport C) :
    MomentoServerTransport C × Option GoError :=
  ({ t with started := false, momentoTopicClient := cl.Close t.momentoTopicClient }, none)

/-- Method `getSendTopicName`. -/
def getSendTopicName {C : Type} (t : MomentoServerTransport C) : String :=
  if t.runMode = Server then "mcp-client" else "mcp-server"

/-- Method `getReadTopicName`. -/
def getReadTopicName {C : Type} (t : MomentoServerTransport C) : String :=
  if t.runMode = Server then "mcp-server" else "mcp-client"

/-- Method `Send`: the context is only handed on to `Publish`. -/
def Send {C : Type} (cl : TopicClient C) (codec : JsonCodec)
    (t : MomentoServerTransport C) (message : BaseJsonRpcMessage) :
    Outcome C (Option GoError) :=
  let topicName := getSendTopicName t
  match codec.Marshal message with
  | .error err => ⟨t, some (.wrap "failed to marshal message" err), []⟩
  | .ok data =>
    let req : TopicPublishRequest :=
      { CacheName := t.cacheName, TopicName := topicName, Value := .String data }
    ⟨t, cl.Publish t.momentoTopicClient req, [.publish req]⟩

/-- Method `SetCloseHandler`. -/
def SetCloseHandler {C : Type} (t : MomentoServerTransport C) (handler : Option Handler) :
    MomentoServerTransport C :=
  { t with onClose := handler }

/-- Method `SetErrorHandler`. -/
def SetErrorHandler {C : Type} (t : MomentoServerTransport C) (handler : Option Handler) :
    MomentoServerTransport C :=
  { t with onError := handler }

/-- Method `SetMessageHandler`. -/
def SetMessageHandler {C : Type} (t : MomentoServerTransport C) (handler : Option Handler) :
    MomentoServerTransport C :=
  { t with onMessage := handler }

/-! ## Message decoding -/

/-- Function `deserializeMessage`: the four typed decoders are tried in source order. -/
def deserializeMessage (codec : JsonCodec) (item : String) :
    Except GoError BaseJsonRpcMessage :=
  match codec.UnmarshalRequest item with
  | .ok req => .ok (.Request req)
  | .error _ =>
    match codec.UnmarshalNotification item with
    | .ok notif => .ok (.Notification notif)
    | .error _ =>
      match codec.UnmarshalResponse item with
      | .ok resp => .ok (.Response resp)
      | .error _ =>
        match codec.UnmarshalError item with
        | .ok errResp => .ok (.Error errResp)
        | .error _ =>
          .error (.text "failed to unmarshal JSON-RPC message, unrecognized type")

/-! ## Subscription loop -/

/-- Method `handleError`. -/
def handleError {C : Type} (cb : Callbacks C) (t : MomentoServerTransport C)
    (err : GoError) : Outcome C Unit :=
  match t.onError with
  | some handler => ⟨cb.runError handler err t, (), [.onError handler err]⟩
  | none => ⟨t, (), []⟩

/-- How a loop stops: it returns (with the subscription results not yet
pulled), it waits in `Item` for ever, it calls a nil `onMessage`, or the
evaluation budget of `readLoopFuel` ran out. -/
inductive Exit where
  | returned (rest : TopicSubscription)
  | blocked
  | nilCall
  | fuelOut
  deriving DecidableEq, Repr

/-- Method `processReadBuffer`, on the results `sub` its `Item` calls will give. -/
def processReadBuffer {C : Type} (cb : Callbacks C) (codec : JsonCodec) :
    TopicSubscription → MomentoServerTransport C → Outcome C Exit
  | [], t => ⟨t, .blocked, [.item]⟩
  | .error err :: rest, t =>
    let r := handleError cb t err
    ⟨r.t, .returned rest, .item :: r.effects⟩
  | .ok (.Bytes _) :: rest, t =>
    let r := processReadBuffer cb codec rest t
    ⟨r.t, r.ret, .item :: r.effects⟩
  | .ok (.String v) :: rest, t =>
    if v = "" then
      ⟨t, .returned rest, [.item]⟩
    else
      match deserializeMessage codec v with
      | .error err =>
        let r := handleError cb t (.wrap "read error" err)
        ⟨r.t, .returned rest, .item :: r.effects⟩
      | .ok msg =>
        match t.onMessage with
        | none => ⟨t, .nilCall, [.item]⟩
        | some handler =>
          let r := processReadBuffer cb codec rest (cb.runMessage handler msg t)
          ⟨r.t, r.ret, .item :: .onMessage handler msg :: r.effects⟩

/-- The `for { select ... }` of `readLoop`: `k` counts the polls of
`ctx.Done()` made so far, `fuel` bounds the iterations evaluated. -/
def readLoopFuel {C : Type} (cl : TopicClient C) (cb : Callbacks C) (codec : JsonCodec)
    (ctx : Context) : Nat → Nat → TopicSubscription → MomentoServerTransport C →
    Outcome C Exit
  | 0, _, _, t => ⟨t, .fuelOut, []⟩
  | fuel + 1, k, sub, t =>
    if ctx.Done k then
      ⟨(Close cl t).1, .returned sub, []⟩
    else if !t.started then
      ⟨t, .returned sub, []⟩
    else
      let r := processReadBuffer cb codec sub t
      match r.ret with
      | .returned rest =>
        let r2 := readLoopFuel cl cb codec ctx fuel (k + 1) rest r.t
        ⟨r2.t, r2.ret, r.effects ++ r2.effects⟩
      | _ => r

/-- The loop of `readLoop` from poll `k` on: every iteration that comes back
has pulled at least one result, so `sub.length + 1` iterations are enough. -/
def readLoopFrom {C : Type} (cl : TopicClient C) (cb : Callbacks C) (codec : JsonCodec)
    (ctx : Context) (k : Nat) (sub : TopicSubscription) (t : MomentoServerTransport C) :
    Outcome C Exit :=
  readLoopFuel cl cb codec ctx (sub.length + 1) k sub t

/-- Method `readLoop`. -/
def readLoop {C : Type} (cl : TopicClient C) (cb : Callbacks C) (codec : JsonCodec)
    (ctx : Context) (t : MomentoServerTransport C) : Outcome C Exit :=
  let req : TopicSubscribeRequest :=
    { CacheName := t.cacheName, TopicName := getReadTopicName t }
  match cl.Subscribe t.momentoTopicClient req with
  | .error err =>
    let r := handleError cb t err
    ⟨r.t, .returned [], .subscribe req :: r.effects⟩
  | .ok sub =>
    let r := readLoopFrom cl cb codec ctx 0 sub t
    ⟨r.t, r.ret, .subscribe req :: r.effects⟩

/-! ## Concrete environments -/

/-- A client whose handle state is "released": `Close` releases it, a released
client refuses `Publish` and `Subscribe`, a live one accepts every publish
and hands out the subscription `sub`. -/
def scriptedClient (sub : TopicSubscription) : TopicClient Bool where
  Close := fun _ => true
  Publish := fun released _ =>
    if released then some (.text "client closed") else none
  Subscribe := fun released _ =>
    if released then .error (.text "client closed") else .ok sub

/-- A client whose handle state counts the `Close` calls it has received; it
accepts every publish and hands out an empty subscription. -/
def countingClient : TopicClient Nat where
  Close := fun n => n + 1
  Publish := fun _ _ => none
  Subscribe := fun _ _ => .ok []

/-- Callbacks that leave the transport alone. -/
def idleCallbacks : Callbacks Bool where
  runError := fun _ _ t => t
  runMessage := fun _ _ t => t

/-- A context that is never cancelled. -/
def background : Context where
  Done := fun _ => false

/-- Wire text of a request. -/
def wireRequest : String := "\x7b\"id\":2,\"method\":\"ping\",\"params\":\"x\"\x7d"

/-- Wire text of a notification. -/
def wireNotification : String := "\x7b\"method\":\"get\",\"params\":\"a\"\x7d"

/-- Wire text of a response. -/
def wireResponse : String := "\x7b\"id\":1,\"result\":\"ok\"\x7d"

/-- Wire text of an error. -/
def wireError : String := "\x7b\"id\":3,\"code\":-1,\"message\":\"no\"\x7d"

/-- The request behind `wireRequest`. -/
def msgRequest : BaseJSONRPCRequest := ⟨2, "ping", "\"x\""⟩

/-- The notification behind `wireNotification`. -/
def msgNotification : BaseJSONRPCNotification := ⟨"get", "\"a\""⟩

/-- The response behind `wireResponse`. -/
def msgResponse : BaseJSONRPCResponse := ⟨1, "\"ok\""⟩

/-- The error behind `wireError`. -/
def msgError : BaseJSONRPCError := ⟨3, -1, "no"⟩

/-- A codec that knows the four wire texts above: it encodes the four messages
behind them and nothing else, and each typed decoder accepts only the text of
its own variant. -/
def tableCodec : JsonCodec where
  Marshal := fun m =>
    if m = .Request msgRequest then .ok wireRequest
    else if m = .Notification msgNotification then .ok wireNotification
    else if m = .Response msgResponse then .ok wireResponse
    else if m = .Error msgError then .ok wireError
    else .error (.text "json: unsupported value")
  UnmarshalRequest := fun s =>
    if s = wireRequest then .ok msgRequest else .error (.text "field method: required")
  UnmarshalNotification := fun s =>
    if s = wireNotification then .ok msgNotification
    else .error (.text "field method: required")
  UnmarshalResponse := fun s =>
    if s = wireResponse then .ok msgResponse else .error (.text "field result: required")
  UnmarshalError := fun s =>
    if s = wireError then .ok msgError else .error (.text "field error: required")

/-- A codec whose notification decoder also accepts the text of a request (it
does not look at the id). -/
def laxCodec : JsonCodec where
  Marshal := tableCodec.Marshal
  UnmarshalRequest := tableCodec.UnmarshalRequest
  UnmarshalNotification := fun s =>
    if s = wireRequest then .ok ⟨"ping", "\"x\""⟩ else tableCodec.UnmarshalNotification s
  UnmarshalResponse := tableCodec.UnmarshalResponse
  UnmarshalError := tableCodec.UnmarshalError

/-! ## Specification-side definitions -/

/-- The calls of a loop that dispatches the messages `ms` one by one and then
waits for the next item: a pull before each handler call, in order, and the
pull that waits. -/
def dispatchTrace (handler : Handler) : List BaseJsonRpcMessage → List Effect
  | [] => [.item]
  | m :: ms => .item :: .onMessage handler m :: dispatchTrace handler ms

/-- The transport after the handler has run on each of the messages `ms`. -/
def afterDispatch {C : Type} (cb : Callbacks C) (handler : Handler) :
    List BaseJsonRpcMessage → MomentoServerTransport C → MomentoServerTransport C
  | [], t => t
  | m :: ms, t => afterDispatch cb handler ms (cb.runMessage handler m t)

/-- A started client transport with both handlers registered. -/
def runningClient : MomentoServerTransport Bool :=
  SetMessageHandler
    (SetErrorHandler (Start (NewMomentoClientTransport false "cache")).t (some "onError"))
    (some "onMessage")

/-! ## Lifecycle: Start and Close -/

/-- C1: on a transport whose `started` flag is set (Start has succeeded, no
Close since: Send and the three setters keep the flag) a further Start returns
the "already started" error, leaves every field as it was and spawns no loop;
the first Start on a freshly constructed server or client transport returns
nil, sets `started` and spawns exactly one read loop. -/
theorem Start_once {C : Type} (cl : TopicClient C) (codec : JsonCodec)
    (t : MomentoServerTransport C) (h : t.started = true)
    (client : C) (cacheName : String) (message : BaseJsonRpcMessage)
    (handler : Option Handler) :
    Start t = ⟨t, some (.text "MomentoServerTransport already started"), []⟩ ∧
    Start (NewMomentoServerTransport client cacheName) =
      ⟨{ NewMomentoServerTransport client cacheName with started := true }, none,
        [.goReadLoop]⟩ ∧
    Start (NewMomentoClientTransport client cacheName) =
      ⟨{ NewMomentoClientTransport client cacheName with started := true }, none,
        [.goReadLoop]⟩ ∧
    (Send cl codec t message).t.started = true ∧
    (SetCloseHandler t handler).started = true ∧
    (SetErrorHandler t handler).started = true ∧
    (SetMessageHandler t handler).started = true := by
  refine ⟨?_, ?_, ?_, ?_, h, h, h⟩
  · simp [Start, h]
  · simp [Start, NewMomentoServerTransport]
  · simp [Start, NewMomentoClientTransport]
  · unfold Send
    cases codec.Marshal message <;> exact h

/-- C1 at a concrete transport: the second Start on a started server transport. -/
theorem Start_once_witness :
    (Start (NewMomentoServerTransport false "cache")).t.started = true ∧
    Start (Start (NewMomentoServerTransport false "cache")).t =
      ⟨(Start (NewMomentoServerTransport false "cache")).t,
        some (.text "MomentoServerTransport already started"), []⟩ ∧
    Start (NewMomentoServerTransport false "cache") =
      ⟨{ NewMomentoServerTransport false "cache" with started := true }, none,
        [.goReadLoop]⟩ :=
  have h := Start_once (scriptedClient []) tableCodec
    (Start (NewMomentoServerTransport false "cache")).t rfl false "cache"
    (.Response msgResponse) none
  ⟨rfl, h.1, h.2.1⟩

/-- C2, as stated, fails: a server transport that was started and then closed
accepts the next Start, which returns nil, sets `started` again and spawns a
second read loop. -/
theorem Start_after_Close_accepted :
    (Start (Close (scriptedClient [])
        (Start (NewMomentoServerTransport false "cache")).t).1).ret = none ∧
    (Start (Close (scriptedClient [])
        (Start (NewMomentoServerTransport false "cache")).t).1).t.started = true ∧
    (Start (Close (scriptedClient [])
        (Start (NewMomentoServerTransport false "cache")).t).1).effects = [.goReadLoop] := by
  decide

/-- C2 amended: Close clears `started`, so on every transport a Start that
follows a Close returns nil, sets `started` to true and spawns one read loop;
the client handle stays the one Close released. -/
theorem Start_after_Close {C : Type} (cl : TopicClient C) (t : MomentoServerTransport C) :
    Start (Close cl t).1 =
      ⟨{ t with started := true, momentoTopicClient := cl.Close t.momentoTopicClient },
        none, [.goReadLoop]⟩ := by
  simp [Start, Close]

/-- C8, as stated, fails: Close calls `Close` on the client on every call, so
on a started server transport whose client counts these calls the first Close
leaves the count at 1 and the second Close, which also returns nil, leaves it
at 2: the second call does not leave the transport as the first call left it. -/
theorem Close_twice_calls_client_twice :
    (Close countingClient (Start (NewMomentoServerTransport 0 "cache")).t).1.momentoTopicClient
      = 1 ∧
    (Close countingClient
        (Close countingClient (Start (NewMomentoServerTransport 0 "cache")).t).1).2 = none ∧
    (Close countingClient
        (Close countingClient
          (Start (NewMomentoServerTransport 0 "cache")).t).1).1.momentoTopicClient = 2 ∧
    Close countingClient
        (Close countingClient (Start (NewMomentoServerTransport 0 "cache")).t).1 ≠
      Close countingClient (Start (NewMomentoServerTransport 0 "cache")).t := by
  decide

/-- C8 amended: on every transport and for every client, Close returns nil,
leaves `started` false, touches no other field of the transport struct and
calls `Close` on the client once; a second Close also returns nil and leaves
`started`, the cache name, the run mode and the three handler slots exactly
as the first Close left them, and it calls `Close` on the client once more,
there being no one-shot guard. -/
theorem Close_repeatable {C : Type} (cl : TopicClient C) (t : MomentoServerTransport C) :
    (Close cl t).2 = none ∧ (Close cl t).1.started = false ∧
    (Close cl t).1.cacheName = t.cacheName ∧ (Close cl t).1.runMode = t.runMode ∧
    (Close cl t).1.onClose = t.onClose ∧ (Close cl t).1.onError = t.onError ∧
    (Close cl t).1.onMessage = t.onMessage ∧
    (Close cl t).1.momentoTopicClient = cl.Close t.momentoTopicClient ∧
    Close cl (Close cl t).1 =
      ({ (Close cl t).1 with
          momentoTopicClient := cl.Close (Close cl t).1.momentoTopicClient }, none) ∧
    (Close cl (Close cl t).1).1.momentoTopicClient =
      cl.Close (cl.Close t.momentoTopicClient) := by
  simp [Close]

/-! ## Topic resolver -/

/-- C5: in run mode Server the send topic is "mcp-client" and the read topic is
"mcp-server"; in run mode Client the send topic is "mcp-server" and the read
topic is "mcp-client"; so each role sends on the topic the other role reads,
the two constructors build these two roles, and on every transport the send
topic differs from the read topic. -/
theorem topic_resolution {C : Type} (t u : MomentoServerTransport C) (client : C)
    (cacheName : String) :
    (t.runMode = Server →
      getSendTopicName t = "mcp-client" ∧ getReadTopicName t = "mcp-server") ∧
    (t.runMode = Client →
      getSendTopicName t = "mcp-server" ∧ getReadTopicName t = "mcp-client") ∧
    (t.runMode = Server → u.runMode = Client →
      getSendTopicName t = getReadTopicName u ∧ getSendTopicName u = getReadTopicName t) ∧
    (NewMomentoServerTransport client cacheName).runMode = Server ∧
    (NewMomentoClientTransport client cacheName).runMode = Client ∧
    getSendTopicName (NewMomentoServerTransport client cacheName) ≠
      getReadTopicName (NewMomentoServerTransport client cacheName) ∧
    getSendTopicName (NewMomentoClientTransport client cacheName) ≠
      getReadTopicName (NewMomentoClientTransport client cacheName) ∧
    getSendTopicName t ≠ getReadTopicName t := by
  have hcs : ¬ (Client = Server) := by decide
  refine ⟨?_, ?_, ?_, rfl, rfl, ?_, ?_, ?_⟩
  · intro h
    simp [getSendTopicName, getReadTopicName, h]
  · intro h
    simp [getSendTopicName, getReadTopicName, h, hcs]
  · intro h h2
    simp [getSendTopicName, getReadTopicName, h, h2, hcs]
  · simp [getSendTopicName, getReadTopicName, NewMomentoServerTransport]
  · simp [getSendTopicName, getReadTopicName, NewMomentoClientTransport, hcs]
  · unfold getSendTopicName getReadTopicName
    split <;> decide

/-- C5 at the two constructed transports. -/
theorem topic_resolution_witness :
    getSendTopicName (NewMomentoServerTransport false "cache") = "mcp-client" ∧
    getReadTopicName (NewMomentoServerTransport false "cache") = "mcp-server" ∧
    getSendTopicName (NewMomentoClientTransport false "cache") = "mcp-server" ∧
    getReadTopicName (NewMomentoClientTransport false "cache") = "mcp-client" :=
  have h := topic_resolution (NewMomentoServerTransport false "cache")
    (NewMomentoClientTransport false "cache") false "cache"
  have h2 := topic_resolution (NewMomentoClientTransport false "cache")
    (NewMomentoServerTransport false "cache") false "cache"
  ⟨(h.1 rfl).1, (h.1 rfl).2, (h2.2.1 rfl).1, (h2.2.1 rfl).2⟩

/-! ## Publisher -/

/-- C3: when encoding the message fails, Send returns the encoding error
wrapped in "failed to marshal message" and publishes nothing; otherwise it
makes exactly one publish, to the cache name of the transport and the send
topic of its role, carrying the encoded message as a string value, and returns
what that publish returned (nil on success). The transport is left as it
was. -/
theorem Send_result {C : Type} (cl : TopicClient C) (codec : JsonCodec)
    (t : MomentoServerTransport C) (message : BaseJsonRpcMessage) :
    (∀ err, codec.Marshal message = .error err →
      Send cl codec t message = ⟨t, some (.wrap "failed to marshal message" err), []⟩) ∧
    (∀ data, codec.Marshal message = .ok data →
      Send cl codec t message =
        ⟨t, cl.Publish t.momentoTopicClient ⟨t.cacheName, getSendTopicName t, .String data⟩,
          [.publish ⟨t.cacheName, getSendTopicName t, .String data⟩]⟩) := by
  constructor
  · intro err h
    simp [Send, h]
  · intro data h
    simp [Send, h]

/-- C3 at concrete messages: a message the codec cannot encode, a response
published by a live server transport, and the same response refused by a
released client. -/
theorem Send_result_witness :
    Send (scriptedClient []) tableCodec (NewMomentoServerTransport false "cache")
        (.Response ⟨7, "null"⟩) =
      ⟨NewMomentoServerTransport false "cache",
        some (.wrap "failed to marshal message" (.text "json: unsupported value")), []⟩ ∧
    Send (scriptedClient []) tableCodec (NewMomentoServerTransport false "cache")
        (.Response msgResponse) =
      ⟨NewMomentoServerTransport false "cache", none,
        [.publish ⟨"cache", "mcp-client", .String wireResponse⟩]⟩ ∧
    Send (scriptedClient []) tableCodec (NewMomentoServerTransport true "cache")
        (.Response msgResponse) =
      ⟨NewMomentoServerTransport true "cache", some (.text "client closed"),
        [.publish ⟨"cache", "mcp-client", .String wireResponse⟩]⟩ :=
  ⟨(Send_result (scriptedClient []) tableCodec (NewMomentoServerTransport false "cache")
      (.Response ⟨7, "null"⟩)).1 (.text "json: unsupported value") (by decide),
   (Send_result (scriptedClient []) tableCodec (NewMomentoServerTransport false "cache")
      (.Response msgResponse)).2 wireResponse (by decide),
   (Send_result (scriptedClient []) tableCodec (NewMomentoServerTransport true "cache")
      (.Response msgResponse)).2 wireResponse (by decide)⟩

/-! ## Decoder -/

/-- C6: decoding is first-match in the order Request, Notification, Response,
Error. The result is the Request variant when the request decoder accepts the
payload (also when the notification decoder would accept it too); else the
Notification variant when the notification decoder accepts it; else the
Response variant; else the Error variant; and the decoder fails exactly when
all four decoders reject the payload, and then with the "unrecognized type"
error. It is a total function: every payload gives a message or that error. -/
theorem deserializeMessage_first_match (codec : JsonCodec) (item : String) :
    (∀ req, codec.UnmarshalRequest item = .ok req →
      deserializeMessage codec item = .ok (.Request req)) ∧
    (∀ req notif, codec.UnmarshalRequest item = .ok req →
      codec.UnmarshalNotification item = .ok notif →
      deserializeMessage codec item = .ok (.Request req)) ∧
    (∀ notif, (codec.UnmarshalRequest item).isOk = false →
      codec.UnmarshalNotification item = .ok notif →
      deserializeMessage codec item = .ok (.Notification notif)) ∧
    (∀ resp, (codec.UnmarshalRequest item).isOk = false →
      (codec.UnmarshalNotification item).isOk = false →
      codec.UnmarshalResponse item = .ok resp →
      deserializeMessage codec item = .ok (.Response resp)) ∧
    (∀ errResp, (codec.UnmarshalRequest item).isOk = false →
      (codec.UnmarshalNotification item).isOk = false →
      (codec.UnmarshalResponse item).isOk = false →
      codec.UnmarshalError item = .ok errResp →
      deserializeMessage codec item = .ok (.Error errResp)) ∧
    ((deserializeMessage codec item).isOk = false ↔
      ((codec.UnmarshalRequest item).isOk = false ∧
        (codec.UnmarshalNotification item).isOk = false ∧
        (codec.UnmarshalResponse item).isOk = false ∧
        (codec.UnmarshalError item).isOk = false)) ∧
    ((deserializeMessage codec item).isOk = false →
      deserializeMessage codec item =
        .error (.text "failed to unmarshal JSON-RPC message, unrecognized type")) := by
  unfold deserializeMessage
  cases h1 : codec.UnmarshalRequest item <;>
    cases h2 : codec.UnmarshalNotification item <;>
    cases h3 : codec.UnmarshalResponse item <;>
    cases h4 : codec.UnmarshalError item <;>
    simp [Except.isOk, Except.toBool]

/-- C6 at concrete payloads: a request text that the notification decoder
accepts as well is a Request; a notification, a response and an error text
decode to their variants; bytes that are not JSON give the error. -/
theorem deserializeMessage_first_match_witness :
    deserializeMessage laxCodec wireRequest = .ok (.Request msgRequest) ∧
    deserializeMessage laxCodec wireNotification = .ok (.Notification msgNotification) ∧
    deserializeMessage laxCodec wireResponse = .ok (.Response msgResponse) ∧
    deserializeMessage laxCodec wireError = .ok (.Error msgError) ∧
    deserializeMessage laxCodec "not json" =
      .error (.text "failed to unmarshal JSON-RPC message, unrecognized type") :=
  ⟨(deserializeMessage_first_match laxCodec wireRequest).2.1 msgRequest ⟨"ping", "\"x\""⟩
      (by decide) (by decide),
   (deserializeMessage_first_match laxCodec wireNotification).2.2.1 msgNotification
      (by decide) (by decide),
   (deserializeMessage_first_match laxCodec wireResponse).2.2.2.1 msgResponse
      (by decide) (by decide) (by decide),
   (deserializeMessage_first_match laxCodec wireError).2.2.2.2.1 msgError
      (by decide) (by decide) (by decide) (by decide),
   (deserializeMessage_first_match laxCodec "not json").2.2.2.2.2.2
      (((deserializeMessage_first_match laxCodec "not json").2.2.2.2.2.1).2
        ⟨by decide, by decide, by decide, by decide⟩)⟩

/-! ## Subscription loop: general facts -/

/-- A call of `processReadBuffer` that returns has pulled at least one result. -/
theorem processReadBuffer_rest_lt {C : Type} (cb : Callbacks C) (codec : JsonCodec) :
    ∀ (sub : TopicSubscription) (t : MomentoServerTransport C) (rest : TopicSubscription),
      (processReadBuffer cb codec sub t).ret = .returned rest → rest.length < sub.length := by
  intro sub
  induction sub with
  | nil => intro t rest h; simp [processReadBuffer] at h
  | cons x xs ih =>
    intro t rest h
    rcases x with err | v
    · simp only [processReadBuffer] at h
      cases h
      simp
    · cases v with
      | Bytes b =>
        simp only [processReadBuffer] at h
        have := ih t rest h
        simp only [List.length_cons]
        omega
      | String v =>
        simp only [processReadBuffer] at h
        split at h
        · cases h; simp
        · split at h
          · cases h; simp
          · split at h
            · simp at h
            · have := ih _ rest h
              simp only [List.length_cons]
              omega

/-- The budget does not matter once it exceeds the number of results left. -/
theorem readLoopFuel_stable {C : Type} (cl : TopicClient C) (cb : Callbacks C)
    (codec : JsonCodec) (ctx : Context) :
    ∀ (fuel fuel2 k : Nat) (sub : TopicSubscription) (t : MomentoServerTransport C),
      sub.length < fuel → sub.length < fuel2 →
      readLoopFuel cl cb codec ctx fuel k sub t = readLoopFuel cl cb codec ctx fuel2 k sub t := by
  intro fuel
  induction fuel with
  | zero => intro fuel2 k sub t h; omega
  | succ n ih =>
    intro fuel2 k sub t h1 h2
    cases fuel2 with
    | zero => omega
    | succ m =>
      simp only [readLoopFuel]
      split
      · rfl
      · split
        · rfl
        · cases hr : (processReadBuffer cb codec sub t).ret with
          | returned rest =>
            have hlt := processReadBuffer_rest_lt cb codec sub t rest hr
            simp only []
            rw [ih m (k + 1) rest _ (by omega) (by omega)]
          | blocked => rfl
          | nilCall => rfl
          | fuelOut => rfl

/-- The loop of `readLoop`, one iteration unfolded: a cancelled context closes
the transport and ends the loop, a cleared `started` flag ends the loop, and
otherwise `processReadBuffer` runs and, when it returns, the loop goes on with
the next poll and the results not yet pulled. -/
theorem readLoopFrom_step {C : Type} (cl : TopicClient C) (cb : Callbacks C)
    (codec : JsonCodec) (ctx : Context) (k : Nat) (sub : TopicSubscription)
    (t : MomentoServerTransport C) :
    readLoopFrom cl cb codec ctx k sub t =
      if ctx.Done k then ⟨(Close cl t).1, .returned sub, []⟩
      else if !t.started then ⟨t, .returned sub, []⟩
      else
        match (processReadBuffer cb codec sub t).ret with
        | .returned rest =>
          ⟨(readLoopFrom cl cb codec ctx (k + 1) rest (processReadBuffer cb codec sub t).t).t,
            (readLoopFrom cl cb codec ctx (k + 1) rest (processReadBuffer cb codec sub t).t).ret,
            (processReadBuffer cb codec sub t).effects ++
              (readLoopFrom cl cb codec ctx (k + 1) rest
                (processReadBuffer cb codec sub t).t).effects⟩
        | _ => processReadBuffer cb codec sub t := by
  unfold readLoopFrom
  rw [readLoopFuel]
  split
  · rfl
  · split
    · rfl
    · cases hr : (processReadBuffer cb codec sub t).ret with
      | returned rest =>
        have hlt := processReadBuffer_rest_lt cb codec sub t rest hr
        simp only [hr]
        rw [readLoopFuel_stable cl cb codec ctx sub.length (rest.length + 1) (k + 1) rest _
          hlt (by omega)]
      | blocked => simp only [hr]
      | nilCall => simp only [hr]
      | fuelOut => simp only [hr]

/-- A call of `processReadBuffer` never reports an exhausted budget. -/
theorem processReadBuffer_ne_fuelOut {C : Type} (cb : Callbacks C) (codec : JsonCodec) :
    ∀ (sub : TopicSubscription) (t : MomentoServerTransport C),
      (processReadBuffer cb codec sub t).ret ≠ .fuelOut := by
  intro sub
  induction sub with
  | nil => intro t; simp [processReadBuffer]
  | cons x xs ih =>
    intro t
    rcases x with err | v
    · simp [processReadBuffer]
    · cases v with
      | Bytes b => simp only [processReadBuffer]; exact ih t
      | String v =>
        simp only [processReadBuffer]
        split
        · simp
        · split
          · simp
          · split
            · simp
            · exact ih _

/-- With a budget above the number of results left the loop never runs out of
budget. -/
theorem readLoopFuel_ne_fuelOut {C : Type} (cl : TopicClient C) (cb : Callbacks C)
    (codec : JsonCodec) (ctx : Context) :
    ∀ (fuel k : Nat) (sub : TopicSubscription) (t : MomentoServerTransport C),
      sub.length < fuel → (readLoopFuel cl cb codec ctx fuel k sub t).ret ≠ .fuelOut := by
  intro fuel
  induction fuel with
  | zero => intro k sub t h; omega
  | succ n ih =>
    intro k sub t h
    simp only [readLoopFuel]
    split
    · simp
    · split
      · simp
      · cases hr : (processReadBuffer cb codec sub t).ret with
        | returned rest =>
          have hlt := processReadBuffer_rest_lt cb codec sub t rest hr
          simp only []
          exact ih (k + 1) rest _ (by omega)
        | blocked => simp [hr]
        | nilCall => simp [hr]
        | fuelOut => exact absurd hr (processReadBuffer_ne_fuelOut cb codec sub t)

/-- The read loop is total on every finite subscription: it ends by returning,
by waiting in `Item` or by a nil call, never by lack of budget. -/
theorem readLoop_total {C : Type} (cl : TopicClient C) (cb : Callbacks C)
    (codec : JsonCodec) (ctx : Context) (t : MomentoServerTransport C) :
    (readLoop cl cb codec ctx t).ret ≠ .fuelOut := by
  cases hs : cl.Subscribe t.momentoTopicClient ⟨t.cacheName, getReadTopicName t⟩ with
  | error err => simp [readLoop, hs]
  | ok sub =>
    simp only [readLoop, hs, readLoopFrom]
    exact readLoopFuel_ne_fuelOut cl cb codec ctx _ 0 _ t (by omega)

/-- Every call of `processReadBuffer` starts with a pull. -/
theorem processReadBuffer_pulls {C : Type} (cb : Callbacks C) (codec : JsonCodec)
    (sub : TopicSubscription) (t : MomentoServerTransport C) :
    ∃ more, (processReadBuffer cb codec sub t).effects = .item :: more := by
  cases sub with
  | nil => exact ⟨[], rfl⟩
  | cons x xs =>
    rcases x with err | v
    · exact ⟨_, rfl⟩
    · cases v with
      | Bytes b => exact ⟨_, rfl⟩
      | String v =>
        simp only [processReadBuffer]
        split
        · exact ⟨_, rfl⟩
        · split
          · exact ⟨_, rfl⟩
          · split
            · exact ⟨_, rfl⟩
            · exact ⟨_, rfl⟩

/-! ## Subscription loop: pull failure -/

/-- C4, as stated, fails: on a started client transport whose context is never
cancelled, a pull that fails is reported to the error handler, and then the
loop pulls again, delivers the response that the second pull brings to the
message handler, and pulls a third time. -/
theorem pull_failure_loop_goes_on :
    readLoop (scriptedClient [.error (.text "stream reset"), .ok (.String wireResponse)])
        idleCallbacks tableCodec background runningClient =
      ⟨runningClient, .blocked,
        [.subscribe ⟨"cache", "mcp-client"⟩, .item, .onError "onError" (.text "stream reset"),
          .item, .onMessage "onMessage" (.Response msgResponse), .item]⟩ := by
  decide

/-- C4 amended: a pull that fails ends the current `processReadBuffer` call only:
the error handler, when one is registered, is invoked with that error (with
none registered the error is dropped) and the call returns having pulled
nothing more. The loop of `readLoop` then goes on with its next iteration: it
ends there when the context is found cancelled (after calling Close) or when
`started` has been cleared, for instance by the error handler; otherwise it
calls `processReadBuffer` again, which issues a further pull. -/
theorem pull_failure_returns {C : Type} (cl : TopicClient C) (cb : Callbacks C)
    (codec : JsonCodec) (ctx : Context) (k : Nat) (err : GoError) (rest : TopicSubscription)
    (t : MomentoServerTransport C) (hctx : ctx.Done k = false) (hstarted : t.started = true) :
    processReadBuffer cb codec (.error err :: rest) t =
      ⟨(handleError cb t err).t, .returned rest, .item :: (handleError cb t err).effects⟩ ∧
    (∀ handler, t.onError = some handler →
      handleError cb t err = ⟨cb.runError handler err t, (), [.onError handler err]⟩) ∧
    (t.onError = none → handleError cb t err = ⟨t, (), []⟩) ∧
    readLoopFrom cl cb codec ctx k (.error err :: rest) t =
      ⟨(readLoopFrom cl cb codec ctx (k + 1) rest (handleError cb t err).t).t,
        (readLoopFrom cl cb codec ctx (k + 1) rest (handleError cb t err).t).ret,
        .item :: (handleError cb t err).effects ++
          (readLoopFrom cl cb codec ctx (k + 1) rest (handleError cb t err).t).effects⟩ ∧
    (ctx.Done (k + 1) = true →
      readLoopFrom cl cb codec ctx (k + 1) rest (handleError cb t err).t =
        ⟨(Close cl (handleError cb t err).t).1, .returned rest, []⟩) ∧
    (ctx.Done (k + 1) = false → (handleError cb t err).t.started = false →
      readLoopFrom cl cb codec ctx (k + 1) rest (handleError cb t err).t =
        ⟨(handleError cb t err).t, .returned rest, []⟩) ∧
    (ctx.Done (k + 1) = false → (handleError cb t err).t.started = true →
      ∃ more, (readLoopFrom cl cb codec ctx (k + 1) rest (handleError cb t err).t).effects =
        .item :: more) := by
  refine ⟨rfl, ?_, ?_, ?_, ?_, ?_, ?_⟩
  · intro handler h
    simp [handleError, h]
  · intro h
    simp [handleError, h]
  · rw [readLoopFrom_step]
    simp [hctx, hstarted, processReadBuffer]
  · intro h
    rw [readLoopFrom_step]
    simp [h]
  · intro h h2
    rw [readLoopFrom_step]
    simp [h, h2]
  · intro h h2
    rw [readLoopFrom_step]
    obtain ⟨more, hm⟩ := processReadBuffer_pulls cb codec rest (handleError cb t err).t
    simp only [h, h2, Bool.false_eq_true, if_false, Bool.not_true]
    cases hr : (processReadBuffer cb codec rest (handleError cb t err).t).ret with
    | returned rest2 => exact ⟨_, by simp only [hm]; rfl⟩
    | blocked => exact ⟨more, hm⟩
    | nilCall => exact ⟨more, hm⟩
    | fuelOut => exact ⟨more, hm⟩

/-- C4 amended, at a concrete run: after the failed pull the started client
transport pulls again. -/
theorem pull_failure_returns_witness :
    ∃ more, (readLoopFrom (scriptedClient []) idleCallbacks tableCodec background 1
        [.ok (.String wireResponse)]
        (handleError idleCallbacks runningClient (.text "stream reset")).t).effects =
      .item :: more :=
  (pull_failure_returns (scriptedClient []) idleCallbacks tableCodec background 0
    (.text "stream reset") [.ok (.String wireResponse)] runningClient rfl rfl).2.2.2.2.2.2
    rfl rfl

/-! ## Subscription loop: empty payload -/

/-- C9: when the item pulled is the empty string, `processReadBuffer` returns
with nothing done but the pull: no message handler call, no error handler call,
the transport as it was. This holds when the empty string is the first item
of the call and when it follows items `pre` that the call has worked through
(the call then ends exactly as if it were still waiting after `pre`, except
that it returns). The loop of `readLoop` is not ended by it: with the context
not cancelled and `started` set it goes on with its next iteration. -/
theorem empty_payload_sentinel {C : Type} (cl : TopicClient C) (cb : Callbacks C)
    (codec : JsonCodec) (ctx : Context) (k : Nat) (pre rest : TopicSubscription)
    (t : MomentoServerTransport C)
    (hpre : (processReadBuffer cb codec pre t).ret = .blocked) :
    processReadBuffer cb codec (.ok (.String "") :: rest) t = ⟨t, .returned rest, [.item]⟩ ∧
    processReadBuffer cb codec (pre ++ .ok (.String "") :: rest) t =
      ⟨(processReadBuffer cb codec pre t).t, .returned rest,
        (processReadBuffer cb codec pre t).effects⟩ ∧
    (ctx.Done k = false → t.started = true →
      readLoopFrom cl cb codec ctx k (.ok (.String "") :: rest) t =
        ⟨(readLoopFrom cl cb codec ctx (k + 1) rest t).t,
          (readLoopFrom cl cb codec ctx (k + 1) rest t).ret,
          .item :: (readLoopFrom cl cb codec ctx (k + 1) rest t).effects⟩) := by
  refine ⟨by simp [processReadBuffer], ?_, ?_⟩
  · induction pre generalizing t with
    | nil => simp [processReadBuffer]
    | cons x xs ih =>
      rcases x with err | v
      · simp [processReadBuffer] at hpre
      · cases v with
        | Bytes b =>
          simp only [processReadBuffer] at hpre
          simp only [List.cons_append, processReadBuffer]
          simp only [List.append_eq, ih t hpre]
        | String v =>
          simp only [processReadBuffer] at hpre
          simp only [List.cons_append, processReadBuffer]
          split
          · rename_i hv; simp [hv] at hpre
          · rename_i hv
            simp only [hv, if_false] at hpre
            split
            · rename_i e hd; simp [hd] at hpre
            · rename_i msg hd
              simp only [hd] at hpre
              split
              · rename_i hm; simp [hm] at hpre
              · rename_i handler hm
                simp only [hm] at hpre
                simp only [List.append_eq, ih _ hpre]
  · intro hctx hstarted
    rw [readLoopFrom_step]
    simp [hctx, hstarted, processReadBuffer]

/-- C9 at a concrete run: an empty string pulled after a dispatched response. -/
theorem empty_payload_sentinel_witness :
    processReadBuffer idleCallbacks tableCodec
        ([.ok (.String wireResponse)] ++ .ok (.String "") :: [.ok (.String wireRequest)])
        runningClient =
      ⟨runningClient, .returned [.ok (.String wireRequest)],
        [.item, .onMessage "onMessage" (.Response msgResponse), .item]⟩ :=
  (empty_payload_sentinel (scriptedClient []) idleCallbacks tableCodec background 0
    [.ok (.String wireResponse)] [.ok (.String wireRequest)] runningClient (by decide)).2.1

/-! ## Subscription loop: dispatch -/

/-- C10: on a started transport whose context is not cancelled and whose
message handler is registered and stays registered, when the subscription
brings the non-empty string payloads of `ps`, each decoding to the message
paired with it, `processReadBuffer` and with it `readLoop` call the message
handler exactly once per item, with the decoded message of that item, in the
order pulled, each pull after the first coming after the handler call for the
item before it; the error handler is not called, and the loop then waits for
the next item. -/
theorem dispatch_in_order {C : Type} (cl : TopicClient C) (cb : Callbacks C)
    (codec : JsonCodec) (ctx : Context) (t : MomentoServerTransport C) (handler : Handler)
    (ps : List (String × BaseJsonRpcMessage))
    (hstarted : t.started = true) (hctx : ctx.Done 0 = false)
    (hsub : cl.Subscribe t.momentoTopicClient ⟨t.cacheName, getReadTopicName t⟩ =
      .ok (ps.map fun p => .ok (.String p.1)))
    (hreg : t.onMessage = some handler)
    (hkeep : ∀ m (u : MomentoServerTransport C), u.onMessage = some handler →
      (cb.runMessage handler m u).onMessage = some handler)
    (hitems : ∀ p ∈ ps, p.1 ≠ "" ∧ deserializeMessage codec p.1 = .ok p.2) :
    processReadBuffer cb codec (ps.map fun p => .ok (.String p.1)) t =
      ⟨afterDispatch cb handler (ps.map Prod.snd) t, .blocked,
        dispatchTrace handler (ps.map Prod.snd)⟩ ∧
    readLoop cl cb codec ctx t =
      ⟨afterDispatch cb handler (ps.map Prod.snd) t, .blocked,
        .subscribe ⟨t.cacheName, getReadTopicName t⟩ ::
          dispatchTrace handler (ps.map Prod.snd)⟩ := by
  have hprb : ∀ (qs : List (String × BaseJsonRpcMessage)) (u : MomentoServerTransport C),
      u.onMessage = some handler →
      (∀ p ∈ qs, p.1 ≠ "" ∧ deserializeMessage codec p.1 = .ok p.2) →
      processReadBuffer cb codec (qs.map fun p => .ok (.String p.1)) u =
        ⟨afterDispatch cb handler (qs.map Prod.snd) u, .blocked,
          dispatchTrace handler (qs.map Prod.snd)⟩ := by
    intro qs
    induction qs with
    | nil => intro u _ _; rfl
    | cons q qs ih =>
      intro u hu hq
      have hq1 := hq q (List.mem_cons_self _ _)
      have hrest : ∀ p ∈ qs, p.1 ≠ "" ∧ deserializeMessage codec p.1 = .ok p.2 :=
        fun p hp => hq p (List.mem_cons_of_mem _ hp)
      simp only [List.map_cons, processReadBuffer, hq1.1, if_false, hq1.2, hu]
      rw [ih _ (hkeep q.2 u hu) hrest]
      rfl
  have h1 := hprb ps t hreg hitems
  refine ⟨h1, ?_⟩
  simp only [readLoop, hsub]
  rw [readLoopFrom_step]
  simp [hctx, hstarted, h1]

/-- C10 at a concrete run: a notification and a response pulled by a started
client transport. -/
theorem dispatch_in_order_witness :
    readLoop (scriptedClient [.ok (.String wireNotification), .ok (.String wireResponse)])
        idleCallbacks tableCodec background runningClient =
      ⟨runningClient, .blocked,
        [.subscribe ⟨"cache", "mcp-client"⟩,
          .item, .onMessage "onMessage" (.Notification msgNotification),
          .item, .onMessage "onMessage" (.Response msgResponse), .item]⟩ :=
  (dispatch_in_order (scriptedClient [.ok (.String wireNotification), .ok (.String wireResponse)])
    idleCallbacks tableCodec background runningClient "onMessage"
    [(wireNotification, .Notification msgNotification), (wireResponse, .Response msgResponse)]
    rfl rfl rfl rfl (fun _ _ h => h) (by decide)).2

end MomentoTransport
